import Mathlib

/-!
# Verification of the nm-proxy connection-to-process bridge

Shallow embedding of the core of the `nm-proxy` repository: the framed
object channel (`src/common/mod.rs`), the daemon-side subprocess bridge
(`src/daemon/client.rs`), the client-side bridge (`src/client/main.rs`),
and — where the second-generation daemon main is absent from the source
tree — models of the Browser Listener and Daemon Supervisor taken from the
specification.

Byte streams are modelled as `List Nat` (each element a byte value).
Rust `String` values that participate in byte-level serialization are
modelled as their UTF-8 byte sequences (`List Nat`); the round-trip and
schema results below hold for arbitrary byte sequences, hence in
particular for all valid UTF-8 strings.
-/

namespace NmProxy

instance {ε α : Type} [DecidableEq ε] [DecidableEq α] : DecidableEq (Except ε α) := fun a b =>
  match a, b with
  | .ok x, .ok y =>
    if h : x = y then isTrue (by rw [h]) else isFalse (fun hh => by cases hh; exact h rfl)
  | .error x, .error y =>
    if h : x = y then isTrue (by rw [h]) else isFalse (fun hh => by cases hh; exact h rfl)
  | .ok _, .error _ => isFalse (fun hh => by cases hh)
  | .error _, .ok _ => isFalse (fun hh => by cases hh)

/-! ## JSON values

`serde_json` is the serialization backend of `send_nm_object` /
`recv_nm_object`.  The handshake protocol only ever exchanges strings,
arrays and objects, so the model restricts the JSON value type to that
subset; payloads outside it fail decoding, which is on the error side of
every claim below. -/

/-- JSON values (the subset exchanged by the handshake protocol). -/
inductive Json where
  | str (s : List Nat)
  | arr (elems : List Json)
  | obj (fields : List (List Nat × Json))

/-- Lowercase hex digit byte, as emitted by `serde_json` control escapes. -/
def hexDigit (d : Nat) : Nat :=
  if d < 10 then 0x30 + d else 0x61 + (d - 10)

/-- Byte-level escaping of one string byte, exactly as `serde_json`
serializes string contents: `"` and `\` are backslash-escaped, the named
control escapes `\b \t \n \f \r` are used where they exist, all other
control bytes become `\u00XX`, and every other byte is emitted verbatim
(UTF-8 continuation bytes are ≥ 0x80 and pass through). -/
def escapeByte (b : Nat) : List Nat :=
  if b = 0x22 then [0x5C, 0x22]
  else if b = 0x5C then [0x5C, 0x5C]
  else if b = 0x08 then [0x5C, 0x62]
  else if b = 0x09 then [0x5C, 0x74]
  else if b = 0x0A then [0x5C, 0x6E]
  else if b = 0x0C then [0x5C, 0x66]
  else if b = 0x0D then [0x5C, 0x72]
  else if b < 0x20 then [0x5C, 0x75, 0x30, 0x30, hexDigit (b / 16), hexDigit (b % 16)]
  else [b]

/-- Escaped body of a JSON string literal. -/
def escString (s : List Nat) : List Nat := s.flatMap escapeByte

/-- A serialized JSON string literal: `"` body `"`. -/
def printString (s : List Nat) : List Nat := 0x22 :: escString s ++ [0x22]

mutual

/-- Compact serialization of a JSON value, as produced by
`serde_json::to_vec` (no whitespace). -/
def printJson : Json → List Nat
  | .str s => printString s
  | .arr [] => [0x5B, 0x5D]
  | .arr (j :: js) => 0x5B :: (printJson j ++ printArrTail js)
  | .obj [] => [0x7B, 0x7D]
  | .obj (f :: fs) => 0x7B :: (printString f.1 ++ 0x3A :: printJson f.2 ++ printFieldsTail fs)

/-- Remaining array elements, each preceded by a comma, then `]`. -/
def printArrTail : List Json → List Nat
  | [] => [0x5D]
  | j :: js => 0x2C :: (printJson j ++ printArrTail js)

/-- Remaining object fields, each preceded by a comma, then `}`. -/
def printFieldsTail : List (List Nat × Json) → List Nat
  | [] => [0x7D]
  | f :: fs => 0x2C :: (printString f.1 ++ 0x3A :: printJson f.2 ++ printFieldsTail fs)

end

/-- JSON insignificant whitespace bytes. -/
def isWsByte (b : Nat) : Bool :=
  b = 0x20 || b = 0x09 || b = 0x0A || b = 0x0D

/-- Skip insignificant whitespace, as `serde_json` does between tokens. -/
def skipWs (input : List Nat) : List Nat := input.dropWhile isWsByte

/-- Value of one hex digit byte (accepting both cases), as in a JSON
`\uXXXX` escape. -/
def parseHexDigit (b : Nat) : Option Nat :=
  if 0x30 ≤ b ∧ b ≤ 0x39 then some (b - 0x30)
  else if 0x61 ≤ b ∧ b ≤ 0x66 then some (b - 0x61 + 10)
  else if 0x41 ≤ b ∧ b ≤ 0x46 then some (b - 0x41 + 10)
  else none

/-- Parse the body of a JSON string literal (the opening `"` already
consumed), returning the decoded bytes and the input after the closing
`"`. Unescaped control bytes are rejected, as `serde_json` rejects them.
`\uXXXX` escapes are decoded for code points below 0x80 (the only ones
`serde_json` emits for these payloads denote control characters, which
are single UTF-8 bytes). -/
def parseStringBody : List Nat → Option (List Nat × List Nat)
  | [] => none
  | b :: rest =>
    if b = 0x22 then some ([], rest)
    else if b = 0x5C then
      match rest with
      | [] => none
      | e :: r =>
        if e = 0x22 then (fun p => (0x22 :: p.1, p.2)) <$> parseStringBody r
        else if e = 0x5C then (fun p => (0x5C :: p.1, p.2)) <$> parseStringBody r
        else if e = 0x2F then (fun p => (0x2F :: p.1, p.2)) <$> parseStringBody r
        else if e = 0x62 then (fun p => (0x08 :: p.1, p.2)) <$> parseStringBody r
        else if e = 0x74 then (fun p => (0x09 :: p.1, p.2)) <$> parseStringBody r
        else if e = 0x6E then (fun p => (0x0A :: p.1, p.2)) <$> parseStringBody r
        else if e = 0x66 then (fun p => (0x0C :: p.1, p.2)) <$> parseStringBody r
        else if e = 0x72 then (fun p => (0x0D :: p.1, p.2)) <$> parseStringBody r
        else if e = 0x75 then
          match r with
          | h1 :: h2 :: h3 :: h4 :: r2 =>
            match parseHexDigit h1, parseHexDigit h2, parseHexDigit h3, parseHexDigit h4 with
            | some d1, some d2, some d3, some d4 =>
              let code := ((d1 * 16 + d2) * 16 + d3) * 16 + d4
              if code < 0x80 then (fun p => (code :: p.1, p.2)) <$> parseStringBody r2
              else none
            | _, _, _, _ => none
          | _ => none
        else none
    else if b < 0x20 then none
    else (fun p => (b :: p.1, p.2)) <$> parseStringBody rest

mutual

/-- Fuel-indexed recursive-descent parser for the JSON subset, following
`serde_json`'s grammar (whitespace skipped before each token). Returns
the parsed value and the unconsumed input. -/
def parseJson : Nat → List Nat → Option (Json × List Nat)
  | 0, _ => none
  | fuel + 1, input =>
    match skipWs input with
    | [] => none
    | b :: rest =>
      if b = 0x22 then (fun p => (Json.str p.1, p.2)) <$> parseStringBody rest
      else if b = 0x5B then
        match skipWs rest with
        | [] => none
        | c :: r2 =>
          if c = 0x5D then some (.arr [], r2)
          else
            match parseJson fuel (c :: r2) with
            | none => none
            | some (j, r3) =>
              match parseArrTail fuel r3 with
              | none => none
              | some (js, r4) => some (.arr (j :: js), r4)
      else if b = 0x7B then
        match skipWs rest with
        | [] => none
        | c :: r2 =>
          if c = 0x7D then some (.obj [], r2)
          else if c = 0x22 then
            match parseField fuel (c :: r2) with
            | none => none
            | some (f, r3) =>
              match parseFieldsTail fuel r3 with
              | none => none
              | some (fs, r4) => some (.obj (f :: fs), r4)
          else none
      else none

/-- Parse one `"key":value` object member. -/
def parseField : Nat → List Nat → Option ((List Nat × Json) × List Nat)
  | 0, _ => none
  | fuel + 1, input =>
    match input with
    | [] => none
    | b :: rest =>
      if b = 0x22 then
        match parseStringBody rest with
        | none => none
        | some (k, r2) =>
          match skipWs r2 with
          | [] => none
          | c :: r3 =>
            if c = 0x3A then
              match parseJson fuel r3 with
              | none => none
              | some (v, r4) => some ((k, v), r4)
            else none
      else none

/-- Parse the continuation of an array after one element: either `]` or
`,` followed by further elements. -/
def parseArrTail : Nat → List Nat → Option (List Json × List Nat)
  | 0, _ => none
  | fuel + 1, input =>
    match skipWs input with
    | [] => none
    | b :: rest =>
      if b = 0x5D then some ([], rest)
      else if b = 0x2C then
        match parseJson fuel rest with
        | none => none
        | some (j, r2) =>
          match parseArrTail fuel r2 with
          | none => none
          | some (js, r3) => some (j :: js, r3)
      else none

/-- Parse the continuation of an object after one member: either `}` or
`,` followed by further members. -/
def parseFieldsTail : Nat → List Nat → Option (List (List Nat × Json) × List Nat)
  | 0, _ => none
  | fuel + 1, input =>
    match skipWs input with
    | [] => none
    | b :: rest =>
      if b = 0x7D then some ([], rest)
      else if b = 0x2C then
        match skipWs rest with
        | [] => none
        | c :: r2 =>
          if c = 0x22 then
            match parseField fuel (c :: r2) with
            | none => none
            | some (f, r2') =>
              match parseFieldsTail fuel r2' with
              | none => none
              | some (fs, r3) => some (f :: fs, r3)
          else none
      else none

end

/-! ## HandshakeMessage (`src/common/mod.rs`, lines 25-30)

```rust
#[derive(Serialize, Deserialize)]
#[serde(deny_unknown_fields)] // Strict mode
pub struct HandshakeMessage {
    pub manifest_name: String,
    pub args: Vec<String>,
}
```
Strings are modelled as their UTF-8 byte sequences. -/

structure HandshakeMessage where
  manifest_name : List Nat
  args : List (List Nat)
  deriving DecidableEq

/-- UTF-8 bytes of the field name `manifest_name`. -/
def keyManifestName : List Nat :=
  [0x6D, 0x61, 0x6E, 0x69, 0x66, 0x65, 0x73, 0x74, 0x5F, 0x6E, 0x61, 0x6D, 0x65]

/-- UTF-8 bytes of the field name `args`. -/
def keyArgs : List Nat := [0x61, 0x72, 0x67, 0x73]

/-- The derived `Serialize` impl: a two-member object in field
declaration order. -/
def handshakeToJson (m : HandshakeMessage) : Json :=
  .obj [(keyManifestName, .str m.manifest_name), (keyArgs, .arr (m.args.map .str))]

/-- Decode a JSON value as a `Vec<String>`, as serde does for the `args`
field: an array whose elements are all strings. -/
def decodeStrList : Json → Option (List (List Nat))
  | .arr js => js.mapM (fun j => match j with | .str s => some s | _ => none)
  | _ => none

/-- The field-visiting loop of the derived `Deserialize` impl under
`deny_unknown_fields`: object members are consumed in order; a key other
than the two declared ones is an error, a duplicate key is an error, a
value of the wrong shape is an error, and a missing field at the end is
an error. -/
def fieldsToHandshake :
    List (List Nat × Json) → Option (List Nat) → Option (List (List Nat)) →
    Except String HandshakeMessage
  | [], some mn, some args => .ok ⟨mn, args⟩
  | [], none, _ => .error "missing field manifest_name"
  | [], some _, none => .error "missing field args"
  | (k, v) :: fs, mn, args =>
    if k = keyManifestName then
      match mn with
      | some _ => .error "duplicate field manifest_name"
      | none =>
        match v with
        | .str s => fieldsToHandshake fs (some s) args
        | _ => .error "invalid type for manifest_name"
    else if k = keyArgs then
      match args with
      | some _ => .error "duplicate field args"
      | none =>
        match decodeStrList v with
        | some l => fieldsToHandshake fs mn (some l)
        | none => .error "invalid type for args"
    else .error "unknown field"

/-- The derived `Deserialize` impl for `HandshakeMessage` applied to a
parsed JSON value. -/
def handshakeFromJson : Json → Except String HandshakeMessage
  | .obj fs => fieldsToHandshake fs none none
  | _ => .error "invalid type: expected struct HandshakeMessage"

/-- `serde_json::to_vec(&object)` for a `HandshakeMessage`. -/
def serdeJsonToVec (m : HandshakeMessage) : List Nat :=
  printJson (handshakeToJson m)

/-- `serde_json::from_slice::<HandshakeMessage>(&buffer)`: parse one JSON
value, require only trailing whitespace after it, then run the derived
deserializer. -/
def serdeJsonFromSlice (buffer : List Nat) : Except String HandshakeMessage :=
  match parseJson (buffer.length + 1) buffer with
  | none => .error "JSON syntax error"
  | some (j, rest) =>
    if skipWs rest = [] then handshakeFromJson j
    else .error "trailing characters"

/-! ## Framed object channel (`src/common/mod.rs`, lines 41-84)

The length prefix is a `u32` in native byte order; the reference
platform is little-endian. -/

/-- The four little-endian bytes of a `u32` value, as written by
`NativeEndian::write_u32`. -/
def u32Bytes (n : Nat) : List Nat :=
  [n % 256, n / 256 % 256, n / 65536 % 256, n / 16777216 % 256]

/-- `NativeEndian::read_u32` over four bytes. -/
def readU32 (b0 b1 b2 b3 : Nat) : Nat :=
  b0 % 256 + b1 % 256 * 256 + b2 % 256 * 65536 + b3 % 256 * 16777216

/-- `send_nm_object(writer, object)` (`src/common/mod.rs`, lines 41-61):
serialize with `serde_json::to_vec`, fail if the length exceeds the
`u32` range, else write the 4-byte length prefix followed by the
payload. Returns the bytes written to the channel. -/
def send_nm_object (m : HandshakeMessage) : Except String (List Nat) :=
  let data := serdeJsonToVec m
  if data.length < 4294967296 then
    .ok (u32Bytes data.length ++ data)
  else .error "Attempted to send message message larger than 4 GiB"

/-- `recv_nm_object(reader)` (`src/common/mod.rs`, lines 63-84): read
exactly 4 length bytes (`read_exact`; a short read is an error), read
exactly that many payload bytes, then decode with
`serde_json::from_slice`. Returns the message and the unread remainder
of the stream. -/
def recv_nm_object (stream : List Nat) : Except String (HandshakeMessage × List Nat) :=
  match stream with
  | b0 :: b1 :: b2 :: b3 :: rest =>
    let length := readU32 b0 b1 b2 b3
    if length ≤ rest.length then
      match serdeJsonFromSlice (rest.take length) with
      | .ok m => .ok (m, rest.drop length)
      | .error e => .error e
    else .error "Failed to read message"
  | _ => .error "Failed to read message length"

/-! ## Subprocess bridge, handshake and spawn
(`src/daemon/client.rs`, `ClientTaskConfig::launch`, lines 33-58) -/

/-- Errors surfaced by the handshake/resolve phase of
`ClientTaskConfig::launch`. -/
inductive LaunchError where
  | recvFailed (msg : String)
  | notRegistered (manifest_name : List Nat)
  deriving DecidableEq

/-- A spawned subprocess: `Command::new(binary).args(handshake.args)`.
`program` is the executable path, `args` the complete argument vector
passed through from the handshake. -/
structure SpawnedProcess where
  program : List Nat
  args : List (List Nat)
  deriving DecidableEq

/-- `HashMap::get` on the per-browser binary map, modelled as
association-list lookup. -/
def binMapGet (bin_map : List (List Nat × List Nat)) (k : List Nat) : Option (List Nat) :=
  match bin_map with
  | [] => none
  | (k', v) :: rest => if k' = k then some v else binMapGet rest k

/-- The handshake/resolve/spawn prefix of `ClientTaskConfig::launch`
(lines 34-58): receive one `HandshakeMessage` from the connection's read
half (failure aborts the bridge), look `manifest_name` up in the shared
binary map (a missing entry aborts with "Native binary for ... not
registered"), and spawn the resolved binary with the handshake's args. -/
def launchSpawn (bin_map : List (List Nat × List Nat)) (input : List Nat) :
    Except LaunchError SpawnedProcess :=
  match recv_nm_object input with
  | .error e => .error (.recvFailed e)
  | .ok (handshake, _) =>
    match binMapGet bin_map handshake.manifest_name with
    | none => .error (.notRegistered handshake.manifest_name)
    | some binary => .ok ⟨binary, handshake.args⟩

/-- The subprocesses spawned by one bridge invocation: one on the success
path, none on the error paths. -/
def spawnedOf (r : Except LaunchError SpawnedProcess) : List SpawnedProcess :=
  match r with
  | .ok s => [s]
  | .error _ => []

/-! ## Subprocess bridge, supervision loop and termination
(`src/daemon/client.rs`, `ClientTaskConfig::launch`, lines 66-121)

The four tasks (stdout copy, stdin copy, stderr logger, cancellation
watcher) run in one `JoinSet`; the loop consumes their results in
completion order. The model takes that completion order as input and
produces the observable event trace plus the bridge's outcome. -/

/-- One `JoinSet::join_next` result, as matched by the loop at lines
81-87: task success, task error, cancelled join, or other join failure
(panic). -/
inductive JoinResult where
  | okOk
  | okErr (msg : String)
  | cancelled
  | joinFailed (msg : String)
  deriving DecidableEq

/-- Observable events of the bridge's termination sequence. -/
inductive TermEvent where
  | sleepMs (n : Nat)
  | sigterm
  | warnTimeout
  | forceKill
  | logExit
  | abortAll
  deriving DecidableEq

/-- Outcome of the bridge task as seen by its owner. -/
inductive BridgeOutcome where
  | completed
  | errored (msg : String)
  | panicked
  deriving DecidableEq

/-- OS-level behavior of the spawned child during termination: whether
`child.id()` still returns a pid, whether `signal::kill` succeeds,
whether the child exits within the 10-second window, and whether
`child.wait()` / `child.kill()` themselves succeed. -/
structure ChildBehavior where
  idAvailable : Bool
  sigtermOk : Bool
  exitsWithin10s : Bool
  waitOk : Bool
  killOk : Bool
  deriving DecidableEq

/-- The termination block (lines 92-116), entered once after the first
joined completion: sleep 200 ms; if `child.id()` is `Some`, send SIGTERM
(the result is `unwrap`ped — a send failure panics); then race a
10-second sleep against `child.wait()` — on timeout log the
"timeout reached, killing" warning and `child.kill()`, on child exit log
the exit status; finally `abort_all`. Returns the events emitted and
`some outcome` when the block ends the bridge early (panic or error). -/
def terminationBlock (c : ChildBehavior) : List TermEvent × Option BridgeOutcome :=
  if c.idAvailable ∧ ¬c.sigtermOk then ([.sleepMs 200], some .panicked)
  else
    let sig : List TermEvent := if c.idAvailable then [.sigterm] else []
    if c.exitsWithin10s then
      if c.waitOk then (.sleepMs 200 :: sig ++ [.logExit, .abortAll], none)
      else (.sleepMs 200 :: sig, some (.errored "unclean shutdown"))
    else
      if c.killOk then (.sleepMs 200 :: sig ++ [.warnTimeout, .forceKill, .abortAll], none)
      else (.sleepMs 200 :: sig ++ [.warnTimeout], some (.errored "failed to kill"))

/-- The supervision loop (lines 80-118): consume joined task results in
completion order; a task error or non-cancellation join failure returns
immediately via `?`; otherwise the termination block runs exactly once
(guarded by the `aborted` flag) and the loop continues joining the
remaining, now aborted, tasks. -/
def bridgeLoop : List JoinResult → Bool → ChildBehavior → List TermEvent × BridgeOutcome
  | [], _, _ => ([], .completed)
  | r :: rs, aborted, c =>
    match r with
    | .okErr e => ([], .errored ("IO task error: " ++ e))
    | .joinFailed e => ([], .errored ("IO task join failed: " ++ e))
    | _ =>
      if aborted then bridgeLoop rs aborted c
      else
        match terminationBlock c with
        | (evs, some out) => (evs, out)
        | (evs, none) =>
          let (evs2, out2) := bridgeLoop rs true c
          (evs ++ evs2, out2)

/-- The supervision phase of `ClientTaskConfig::launch` after a
successful spawn, as a function of the tasks' completion order and the
child's OS behavior. -/
def launchSupervise (completions : List JoinResult) (c : ChildBehavior) :
    List TermEvent × BridgeOutcome :=
  bridgeLoop completions false c

/-- The cancellation-watcher task (lines 75-78): it completes, with
`Ok(())`, exactly when the shared cancellation token has been
signaled. -/
def watcherResult (tokenCancelled : Bool) : Option JoinResult :=
  if tokenCancelled then some .okOk else none

/-! ## stderr logger (`src/daemon/client.rs`, `stderr_task`, lines
126-147)

`read_line` reads up to and including a newline, or up to end of stream;
`buf.pop()` then removes the final character and the line is logged as a
warning. The stream is modelled as the sequence of character code points
the subprocess writes to stderr; the function returns the logged lines
(the task itself returns `Ok` when the stream closes). -/

/-- One pass of the `stderr_task` loop: `buf` is the line accumulated so
far (including its newline once read), `input` the unread stream. -/
def stderrLinesAux (buf : List Nat) (input : List Nat) : List (List Nat) :=
  match input with
  | [] => if buf.isEmpty then [] else [buf.dropLast]
  | c :: rest =>
    if c = 10 then (buf ++ [c]).dropLast :: stderrLinesAux [] rest
    else stderrLinesAux (buf ++ [c]) rest

/-- The warning lines logged by `stderr_task` for a given stderr
stream. -/
def stderr_task (input : List Nat) : List (List Nat) :=
  stderrLinesAux [] input

/-! ## Client-side bridge (`src/client/main.rs`)

### Channel discovery (`find_socket`, lines 41-81) -/

/-- `parse_env(name, default)` (`src/common/mod.rs`, lines 32-39): an
absent variable falls back to the default when one is given, otherwise
it is an error. The environment is modelled as an association list. -/
def parse_env (env : List (String × String)) (name : String) (default : Option String) :
    Except String String :=
  match env.lookup name, default with
  | none, some value => .ok value
  | none, none => .error ("Failed to parse environment variable " ++ name)
  | some v, _ => .ok v

/-- The socket name prefix constant of `src/common/mod.rs`. File names
are modelled as character lists. -/
def SOCKET_PREFIX : List Char := "nm-proxy-".toList

/-- The socket name suffix constant of `src/common/constants.rs`;
`find_socket` never consults it. -/
def SOCKET_SUFFIX : List Char := ".socket".toList

/-- One runtime-directory entry as observed by `find_socket`: its file
name and whether its file type reads as a regular file (the Flatpak
workaround at lines 63-70 tests `is_file()` instead of
`is_socket()`). -/
structure DirEntry where
  name : List Char
  isFile : Bool
  deriving DecidableEq

/-- The entry filter at lines 65-70: regular file type and a name
starting with the socket name prefix. -/
def socketEntryMatch (e : DirEntry) : Bool :=
  e.isFile && SOCKET_PREFIX.isPrefixOf e.name

/-- The scan loop of `find_socket` over the runtime directory's entries
in iteration order: return the path of the first entry passing
`socketEntryMatch`, else the "No valid socket found" error. -/
def findSocketScan (runtimeDir : String) : List DirEntry → Except String (List Char)
  | [] => .error ("No valid socket found in " ++ runtimeDir)
  | e :: rest =>
    if socketEntryMatch e then .ok (runtimeDir.toList ++ ('/' :: e.name))
    else findSocketScan runtimeDir rest

/-- `find_socket()` (lines 41-81): take the runtime directory from the
`XDG_RUNTIME_DIR` environment variable (no default), then scan its
entries. -/
def find_socket (env : List (String × String)) (entries : List DirEntry) :
    Except String (List Char) :=
  match parse_env env "XDG_RUNTIME_DIR" none with
  | .error e => .error e
  | .ok runtimeDir => findSocketScan runtimeDir entries

/-- The discovery rule as the specification words it ("name matches a
fixed prefix/suffix convention"): first entry whose name starts with the
socket name prefix and also ends with the socket name suffix. Stated for
comparison with `findSocketScan`, which is translated from the source. -/
def findSocketSpec (runtimeDir : String) : List DirEntry → Except String (List Char)
  | [] => .error ("No valid socket found in " ++ runtimeDir)
  | e :: rest =>
    if SOCKET_PREFIX.isPrefixOf e.name && SOCKET_SUFFIX.isSuffixOf e.name then
      .ok (runtimeDir.toList ++ ('/' :: e.name))
    else findSocketSpec runtimeDir rest

/-! ### Client main loop (`src/client/main.rs`, lines 112-142)

After the handshake is sent, three tasks run in a `JoinSet`: the
stdin→socket copy and the socket→stdout copy (each mapping its result to
`false`) and the `ctrl_c` interrupt wait (mapping its result to `true`).
The loop ORs the booleans of all successfully joined tasks into
`graceful`, returns early on any task error or non-cancellation join
failure, and finally exits successfully iff `graceful` is set. -/

/-- The three client-side tasks. -/
inductive ClientTask where
  | stdinCopy
  | stdoutCopy
  | interruptWait
  deriving DecidableEq

/-- How one client task left the `JoinSet`: finished on its own, failed
with an error, was cancelled by `abort_all`, or its join failed
(panic). -/
inductive TaskOutcome where
  | finished
  | failed (msg : String)
  | wasCancelled
  | panicked (msg : String)
  deriving DecidableEq

/-- Whether an outcome surfaces as an error in the result loop (a task
error or a join failure); cancellations and plain completions do not. -/
def isErrorOutcome : TaskOutcome → Bool
  | .failed _ => true
  | .panicked _ => true
  | .finished => false
  | .wasCancelled => false

/-- One joined result as matched at lines 124-129. -/
inductive ClientJoin where
  | okVal (graceful : Bool)
  | taskErr (msg : String)
  | cancelled
  | joinErr (msg : String)
  deriving DecidableEq

/-- The `JoinSet` value produced by a task and its outcome: copy tasks
map success to `false` (lines 114-115), the interrupt wait maps success
to `true` (line 118). -/
def joinOf : ClientTask → TaskOutcome → ClientJoin
  | t, .finished => .okVal (t == .interruptWait)
  | _, .failed e => .taskErr e
  | _, .wasCancelled => .cancelled
  | _, .panicked e => .joinErr e

/-- The result loop at lines 121-142 over the joined results in
completion order, with the `graceful` accumulator. -/
def clientLoop : List ClientJoin → Bool → Except String Unit
  | [], graceful =>
    if graceful then .ok () else .error "Unclean shutdown, did the socket close?"
  | r :: rs, graceful =>
    match r with
    | .okVal b => clientLoop rs (graceful || b)
    | .taskErr e => .error ("Task encountered error: " ++ e)
    | .cancelled => clientLoop rs graceful
    | .joinErr e => .error ("Unexpected error when joining task: " ++ e)

/-- The client process's exit result as a function of the tasks'
completions in join order. -/
def clientRun (completions : List (ClientTask × TaskOutcome)) : Except String Unit :=
  clientLoop (completions.map (fun p => joinOf p.1 p.2)) false

/-! ## Browser Listener and Daemon Supervisor (later generation)

The source tree contains the superseded first-generation daemon main
(`src/daemon/main.rs`, which still binds its own sockets and has no
cancellation), while `src/daemon/client.rs` already belongs to the later
generation (it takes a `CancellationToken` and a connection id that no
code under `src/` supplies). The later-generation listener loop and
supervisor startup are therefore modelled from the specification
(§4.4, §4.5, §6 "Activation contract"). -/

/-- Observable listener actions. -/
inductive ListenerEvent where
  | acceptedConn
  | drained
  deriving DecidableEq

/-- Modelled from the spec: the drain step of the later-generation
Browser Listener (§4.4) — wait for all currently-running bridges to
finish, surfacing the first bridge error if any, else success. -/
def listenerDrain : List (Except String Unit) → Except String Unit
  | [] => .ok ()
  | .ok () :: rest => listenerDrain rest
  | .error e :: _ => .error e

/-- Modelled from the spec: one observation of the later-generation
Browser Listener loop (§4.4), which races "cancellation token signaled"
against "accept next connection". With the token signaled it stops
accepting and drains; otherwise it accepts each pending connection and
keeps running (no final result). -/
def listenerOnToken (tokenCancelled : Bool) (pending : List Unit)
    (bridgeResults : List (Except String Unit)) :
    List ListenerEvent × Option (Except String Unit) :=
  if tokenCancelled then ([.drained], some (listenerDrain bridgeResults))
  else (pending.map (fun _ => .acceptedConn), none)

/-- A pre-bound listening channel handed to the daemon by the activation
mechanism, keyed by browser name. -/
structure PreBoundChannel where
  browser : String
  deriving DecidableEq

/-- Modelled from the spec: the later-generation Daemon Supervisor
startup (§4.5 steps 1-3, §6 "Activation contract"). The daemon obtains
its listening channels pre-bound from the activation mechanism and never
binds any itself; receiving zero channels is a fatal error before any
listener task starts; each browser of the binary map must have a
matching channel (fatal mismatch otherwise), and one listener is started
per such browser, on the matching activated channel. Returns the
channels the started listeners accept on. -/
def daemonStartup (activated : List PreBoundChannel) (mapBrowsers : List String) :
    Except String (List PreBoundChannel) :=
  if activated.isEmpty then
    .error "no listening sockets received, socket activation is required"
  else
    match mapBrowsers.mapM (fun b => activated.find? (fun c => c.browser == b)) with
    | some listeners => .ok listeners
    | none => .error "no activated socket for a configured browser"

/-! ## Round-trip of the serde_json layer -/

theorem skipWs_cons {b : Nat} (t : List Nat) (h : isWsByte b = false) :
    skipWs (b :: t) = b :: t := by
  simp [skipWs, List.dropWhile, h]

theorem parseHexDigit_hexDigit {d : Nat} (h : d < 16) :
    parseHexDigit (hexDigit d) = some d := by
  interval_cases d <;> rfl

theorem parseStringBody_escapeByte (b : Nat) (t : List Nat) :
    parseStringBody (escapeByte b ++ t) =
      (fun p => (b :: p.1, p.2)) <$> parseStringBody t := by
  by_cases h22 : b = 0x22
  · subst h22; rw [parseStringBody.eq_def]; norm_num [escapeByte]
  by_cases h5C : b = 0x5C
  · subst h5C; rw [parseStringBody.eq_def]; norm_num [escapeByte]
  by_cases h08 : b = 0x08
  · subst h08; rw [parseStringBody.eq_def]; norm_num [escapeByte]
  by_cases h09 : b = 0x09
  · subst h09; rw [parseStringBody.eq_def]; norm_num [escapeByte]
  by_cases h0A : b = 0x0A
  · subst h0A; rw [parseStringBody.eq_def]; norm_num [escapeByte]
  by_cases h0C : b = 0x0C
  · subst h0C; rw [parseStringBody.eq_def]; norm_num [escapeByte]
  by_cases h0D : b = 0x0D
  · subst h0D; rw [parseStringBody.eq_def]; norm_num [escapeByte]
  by_cases hctl : b < 0x20
  · have hdiv : b / 16 < 16 := by omega
    have hmod : b % 16 < 16 := by omega
    rw [show escapeByte b ++ t =
          0x5C :: 0x75 :: 0x30 :: 0x30 :: hexDigit (b / 16) :: hexDigit (b % 16) :: t from by
        simp [escapeByte, h22, h5C, h08, h09, h0A, h0C, h0D, hctl]]
    rw [parseStringBody.eq_def]
    have h30 : parseHexDigit 0x30 = some 0 := rfl
    norm_num [h30, parseHexDigit_hexDigit hdiv, parseHexDigit_hexDigit hmod]
    have hb : b / 16 * 16 + b % 16 = b := by omega
    rw [hb, if_pos (by omega : b < 0x80)]
  · rw [show escapeByte b ++ t = b :: t from by
        simp [escapeByte, h22, h5C, h08, h09, h0A, h0C, h0D, hctl]]
    rw [parseStringBody.eq_def]
    simp [h22, h5C, hctl]

theorem parseStringBody_escString (s : List Nat) (t : List Nat) :
    parseStringBody (escString s ++ (0x22 :: t)) = some (s, t) := by
  induction s with
  | nil =>
    show parseStringBody (0x22 :: t) = some ([], t)
    rw [parseStringBody.eq_def]; norm_num
  | cons b s ih =>
    have hsplit : escString (b :: s) ++ (0x22 :: t) =
        escapeByte b ++ (escString s ++ (0x22 :: t)) := by
      simp [escString, List.append_assoc]
    rw [hsplit, parseStringBody_escapeByte, ih]
    rfl

theorem parseJson_printString (fuel : Nat) (s t : List Nat) :
    parseJson (fuel + 1) (printString s ++ t) = some (.str s, t) := by
  have hsplit : printString s ++ t = 0x22 :: (escString s ++ (0x22 :: t)) := by
    simp [printString, List.append_assoc]
  rw [hsplit, parseJson.eq_def]
  norm_num [skipWs, List.dropWhile, isWsByte, parseStringBody_escString]

theorem parseArrTail_printArrTail_str (xs : List (List Nat)) :
    ∀ (fuel : Nat) (t : List Nat), xs.length + 1 ≤ fuel →
      parseArrTail fuel (printArrTail (xs.map .str) ++ t) = some (xs.map .str, t) := by
  induction xs with
  | nil =>
    intro fuel t hfuel
    obtain ⟨f, rfl⟩ : ∃ f, fuel = f + 1 := ⟨fuel - 1, by omega⟩
    show parseArrTail (f + 1) ((0x5D : Nat) :: t) = some ([], t)
    rw [parseArrTail.eq_def]
    norm_num [skipWs, List.dropWhile, isWsByte]
  | cons x xs ih =>
    intro fuel t hfuel
    obtain ⟨f, rfl⟩ : ∃ f, fuel = f + 1 := ⟨fuel - 1, by omega⟩
    obtain ⟨g, rfl⟩ : ∃ g, f = g + 1 := ⟨f - 1, by simp at hfuel; omega⟩
    have hsplit : printArrTail ((x :: xs).map .str) ++ t =
        0x2C :: (printString x ++ (printArrTail (xs.map .str) ++ t)) := by
      simp [printArrTail, printJson, List.append_assoc]
    rw [hsplit, parseArrTail.eq_def]
    norm_num [skipWs, List.dropWhile, isWsByte, parseJson_printString,
      ih (g + 1) t (by simp at hfuel ⊢; omega)]

theorem parseJson_printArr_str (xs : List (List Nat)) (fuel : Nat) (t : List Nat)
    (hfuel : xs.length + 2 ≤ fuel) :
    parseJson fuel (printJson (.arr (xs.map .str)) ++ t) =
      some (.arr (xs.map .str), t) := by
  obtain ⟨f, rfl⟩ : ∃ f, fuel = f + 1 := ⟨fuel - 1, by omega⟩
  cases xs with
  | nil =>
    show parseJson (f + 1) ((0x5B : Nat) :: 0x5D :: t) = some (.arr [], t)
    rw [parseJson.eq_def]
    norm_num [skipWs, List.dropWhile, isWsByte]
  | cons x xs =>
    obtain ⟨g, rfl⟩ : ∃ g, f = g + 1 := ⟨f - 1, by simp at hfuel; omega⟩
    have hstr : parseJson (g + 1)
        (0x22 :: (escString x ++ (0x22 :: (printArrTail (xs.map .str) ++ t)))) =
        some (.str x, printArrTail (xs.map .str) ++ t) := by
      have hp := parseJson_printString g x (printArrTail (xs.map .str) ++ t)
      simpa [printString, List.append_assoc] using hp
    have hsplit : printJson (.arr ((x :: xs).map .str)) ++ t =
        0x5B :: (0x22 :: (escString x ++ (0x22 :: (printArrTail (xs.map .str) ++ t)))) := by
      simp [printJson, printString, List.append_assoc]
    rw [hsplit, parseJson.eq_def]
    norm_num [skipWs, List.dropWhile, isWsByte, hstr,
      parseArrTail_printArrTail_str xs (g + 1) t (by simp at hfuel ⊢; omega)]

theorem parseField_of_value (fuel : Nat) (k : List Nat) (v : Json) (t : List Nat)
    (hv : parseJson fuel (printJson v ++ t) = some (v, t)) :
    parseField (fuel + 1) (0x22 :: (escString k ++ (0x22 :: (0x3A :: (printJson v ++ t))))) =
      some ((k, v), t) := by
  rw [parseField.eq_def]
  norm_num [parseStringBody_escString, skipWs, List.dropWhile, isWsByte, hv]

theorem parseJson_handshake (m : HandshakeMessage) (fuel : Nat) (t : List Nat)
    (hfuel : m.args.length + 5 ≤ fuel) :
    parseJson fuel (printJson (handshakeToJson m) ++ t) = some (handshakeToJson m, t) := by
  obtain ⟨c, rfl⟩ : ∃ c, fuel = c + 1 := ⟨fuel - 1, by omega⟩
  obtain ⟨d, rfl⟩ : ∃ d, c = d + 1 := ⟨c - 1, by omega⟩
  obtain ⟨e, rfl⟩ : ∃ e, d = e + 1 := ⟨d - 1, by omega⟩
  have harr : parseJson e (printJson (.arr (m.args.map .str)) ++ (0x7D :: t)) =
      some (.arr (m.args.map .str), 0x7D :: t) :=
    parseJson_printArr_str m.args e (0x7D :: t) (by omega)
  have hstr : parseJson (e + 1)
      (printJson (.str m.manifest_name) ++
        (0x2C :: (0x22 :: (escString keyArgs ++
          (0x22 :: (0x3A :: (printJson (.arr (m.args.map .str)) ++ (0x7D :: t)))))))) =
      some (.str m.manifest_name,
        0x2C :: (0x22 :: (escString keyArgs ++
          (0x22 :: (0x3A :: (printJson (.arr (m.args.map .str)) ++ (0x7D :: t))))))) :=
    parseJson_printString e m.manifest_name _
  have hf1 : parseField (e + 1 + 1)
      (0x22 :: (escString keyManifestName ++ (0x22 :: (0x3A ::
        (printJson (.str m.manifest_name) ++
          (0x2C :: (0x22 :: (escString keyArgs ++ (0x22 :: (0x3A ::
            (printJson (.arr (m.args.map .str)) ++ (0x7D :: t)))))))))))) =
      some ((keyManifestName, .str m.manifest_name),
        0x2C :: (0x22 :: (escString keyArgs ++ (0x22 :: (0x3A ::
          (printJson (.arr (m.args.map .str)) ++ (0x7D :: t))))))) :=
    parseField_of_value (e + 1) keyManifestName (.str m.manifest_name) _ hstr
  have hf2 : parseField (e + 1)
      (0x22 :: (escString keyArgs ++ (0x22 :: (0x3A ::
        (printJson (.arr (m.args.map .str)) ++ (0x7D :: t)))))) =
      some ((keyArgs, .arr (m.args.map .str)), 0x7D :: t) :=
    parseField_of_value e keyArgs (.arr (m.args.map .str)) (0x7D :: t) harr
  have hft1 : parseFieldsTail (e + 1) ((0x7D : Nat) :: t) = some ([], t) := by
    rw [parseFieldsTail.eq_def]
    norm_num [skipWs, List.dropWhile, isWsByte]
  have hft2 : parseFieldsTail (e + 1 + 1)
      (0x2C :: (0x22 :: (escString keyArgs ++ (0x22 :: (0x3A ::
        (printJson (.arr (m.args.map .str)) ++ (0x7D :: t))))))) =
      some ([(keyArgs, .arr (m.args.map .str))], t) := by
    rw [parseFieldsTail.eq_def]
    norm_num [skipWs, List.dropWhile, isWsByte, hf2, hft1]
  have hsplit : printJson (handshakeToJson m) ++ t =
      0x7B :: (0x22 :: (escString keyManifestName ++ (0x22 :: (0x3A ::
        (printJson (.str m.manifest_name) ++
          (0x2C :: (0x22 :: (escString keyArgs ++ (0x22 :: (0x3A ::
            (printJson (.arr (m.args.map .str)) ++ (0x7D :: t)))))))))))) := by
    simp [handshakeToJson, printJson, printFieldsTail, printString, List.append_assoc]
  rw [hsplit, parseJson.eq_def]
  norm_num [skipWs, List.dropWhile, isWsByte, hf1, hft2, handshakeToJson]

theorem printArrTail_str_length (xs : List (List Nat)) :
    xs.length + 1 ≤ (printArrTail (xs.map .str)).length := by
  induction xs with
  | nil => simp [printArrTail]
  | cons x xs ih =>
    simp only [List.map_cons, printArrTail, printJson, printString, List.length_cons,
      List.length_append]
    omega

theorem printArr_str_length (xs : List (List Nat)) :
    xs.length + 2 ≤ (printJson (.arr (xs.map .str))).length := by
  cases xs with
  | nil => simp [printJson]
  | cons x xs =>
    have h := printArrTail_str_length xs
    simp only [List.map_cons, printJson, printString, List.length_cons, List.length_append]
    omega

theorem serdeJsonToVec_length (m : HandshakeMessage) :
    m.args.length + 4 ≤ (serdeJsonToVec m).length := by
  have harr := printArr_str_length m.args
  simp only [serdeJsonToVec, handshakeToJson, printJson, printFieldsTail, printString,
    List.length_cons, List.length_append]
  omega

theorem decodeStrList_map_str (xs : List (List Nat)) :
    decodeStrList (.arr (xs.map .str)) = some xs := by
  induction xs with
  | nil => rfl
  | cons x xs ih =>
    simp only [decodeStrList, List.map_cons, List.mapM_cons] at ih ⊢
    rw [ih]
    rfl

theorem handshakeFromJson_toJson (m : HandshakeMessage) :
    handshakeFromJson (handshakeToJson m) = .ok m := by
  simp [handshakeFromJson, handshakeToJson, fieldsToHandshake, keyManifestName, keyArgs,
    decodeStrList_map_str]

theorem serdeJsonFromSlice_toVec (m : HandshakeMessage) :
    serdeJsonFromSlice (serdeJsonToVec m) = .ok m := by
  have hparse : parseJson ((serdeJsonToVec m).length + 1) (serdeJsonToVec m) =
      some (handshakeToJson m, []) := by
    have h := parseJson_handshake m ((serdeJsonToVec m).length + 1) []
      (by have := serdeJsonToVec_length m; omega)
    simpa [serdeJsonToVec] using h
  simp [serdeJsonFromSlice, hparse, skipWs, handshakeFromJson_toJson]

theorem readU32_u32Bytes (n : Nat) :
    readU32 (n % 256) (n / 256 % 256) (n / 65536 % 256) (n / 16777216 % 256) =
      n % 4294967296 := by
  simp only [readU32]
  omega

/-- Framing round-trip at the stream level, shared by the handshake and
spawn results: a frame produced by `send_nm_object` is decoded back by
`recv_nm_object`, which consumes exactly the frame and leaves the rest
of the stream unread. -/
theorem recv_nm_object_send (m : HandshakeMessage) (frame rest : List Nat)
    (h : send_nm_object m = .ok frame) :
    recv_nm_object (frame ++ rest) = .ok (m, rest) := by
  simp only [send_nm_object] at h
  split at h
  · cases h
    simp only [u32Bytes, List.cons_append, List.nil_append, List.append_assoc]
    rw [recv_nm_object.eq_def]
    norm_num [readU32_u32Bytes, Nat.mod_eq_of_lt (by assumption), List.take_left,
      List.drop_left, serdeJsonFromSlice_toVec]
  · exact absurd h (by simp)

/-! ## C4 — framing round-trip -/

/-- C4: for every `HandshakeMessage` m, writing m with `send_nm_object`
to a channel and then reading that channel with `recv_nm_object` yields
a message equal to m, with `recv_nm_object` consuming exactly the 4-byte
length prefix followed by exactly that many payload bytes (any further
bytes on the stream are left unread), the frame being precisely the
4-byte length prefix plus the serialized payload. -/
theorem framing_roundtrip_C4 (m : HandshakeMessage) (frame rest : List Nat)
    (h : send_nm_object m = .ok frame) :
    recv_nm_object (frame ++ rest) = .ok (m, rest) ∧
      frame = u32Bytes (serdeJsonToVec m).length ++ serdeJsonToVec m := by
  refine ⟨recv_nm_object_send m frame rest h, ?_⟩
  simp only [send_nm_object] at h
  split at h
  · cases h; rfl
  · exact absurd h (by simp)

theorem framing_roundtrip_C4_witness :
    recv_nm_object ((u32Bytes (serdeJsonToVec ⟨[97], [[98], [99]]⟩).length ++
        serdeJsonToVec ⟨[97], [[98], [99]]⟩) ++ [7, 7]) =
      .ok (⟨[97], [[98], [99]]⟩, [7, 7]) :=
  (framing_roundtrip_C4 ⟨[97], [[98], [99]]⟩ _ [7, 7] (by rfl)).1

/-! ## C1 — handshake, resolution and spawn -/

/-- C1: for every accepted connection handled by a bridge, if the
handshake parses and its `manifest_name` resolves in the browser's
binary map, exactly one subprocess is spawned, with the resolved
executable path as its program and the handshake's args, in order, as
its complete argument vector; if the handshake fails to parse or the
name is absent from the map, the bridge returns an error (for an
unresolved name, one naming it as not registered) and spawns nothing. -/
theorem spawn_contract_C1 :
    (∀ (bm : List (List Nat × List Nat)) (input : List Nat) (hs : HandshakeMessage)
       (tail bin : List Nat),
       recv_nm_object input = .ok (hs, tail) →
       binMapGet bm hs.manifest_name = some bin →
       launchSpawn bm input = .ok ⟨bin, hs.args⟩ ∧
         spawnedOf (launchSpawn bm input) = [⟨bin, hs.args⟩]) ∧
    (∀ (bm : List (List Nat × List Nat)) (input : List Nat) (hs : HandshakeMessage)
       (tail : List Nat),
       recv_nm_object input = .ok (hs, tail) →
       binMapGet bm hs.manifest_name = none →
       launchSpawn bm input = .error (.notRegistered hs.manifest_name) ∧
         spawnedOf (launchSpawn bm input) = []) ∧
    (∀ (bm : List (List Nat × List Nat)) (input : List Nat) (e : String),
       recv_nm_object input = .error e →
       launchSpawn bm input = .error (.recvFailed e) ∧
         spawnedOf (launchSpawn bm input) = []) := by
  refine ⟨fun bm input hs tail bin hrecv hbin => ?_,
          fun bm input hs tail hrecv hbin => ?_,
          fun bm input e hrecv => ?_⟩
  · constructor <;> simp [launchSpawn, hrecv, hbin, spawnedOf]
  · constructor <;> simp [launchSpawn, hrecv, hbin, spawnedOf]
  · constructor <;> simp [launchSpawn, hrecv, spawnedOf]

theorem spawn_contract_C1_witness :
    (launchSpawn [([97], [47, 98])]
        (u32Bytes (serdeJsonToVec ⟨[97], [[98], [99]]⟩).length ++
          serdeJsonToVec ⟨[97], [[98], [99]]⟩) =
      .ok ⟨[47, 98], [[98], [99]]⟩) ∧
    (launchSpawn []
        (u32Bytes (serdeJsonToVec ⟨[97], [[98], [99]]⟩).length ++
          serdeJsonToVec ⟨[97], [[98], [99]]⟩) =
      .error (.notRegistered [97])) ∧
    (launchSpawn [([97], [47, 98])] [] = .error (.recvFailed "Failed to read message length")) := by
  refine ⟨?_, ?_, ?_⟩
  · exact (spawn_contract_C1.1 [([97], [47, 98])] _ ⟨[97], [[98], [99]]⟩ [] [47, 98]
      (by rfl) (by rfl)).1
  · exact (spawn_contract_C1.2.1 [] _ ⟨[97], [[98], [99]]⟩ [] (by rfl) (by rfl)).1
  · exact (spawn_contract_C1.2.2 [([97], [47, 98])] [] "Failed to read message length"
      (by rfl)).1

/-! ## C5 — strict schema -/

theorem fieldsToHandshake_ok_keys :
    ∀ (fs : List (List Nat × Json)) (mn : Option (List Nat))
      (args : Option (List (List Nat))) (m : HandshakeMessage),
      fieldsToHandshake fs mn args = .ok m →
      (∀ k ∈ fs.map Prod.fst, k = keyManifestName ∨ k = keyArgs) ∧
      (mn = none → keyManifestName ∈ fs.map Prod.fst) ∧
      (args = none → keyArgs ∈ fs.map Prod.fst) := by
  intro fs
  induction fs with
  | nil =>
    intro mn args m h
    cases mn with
    | none => simp [fieldsToHandshake] at h
    | some v =>
      cases args with
      | none => simp [fieldsToHandshake] at h
      | some w => simp
  | cons f fs ih =>
    intro mn args m h
    obtain ⟨k, v⟩ := f
    by_cases hk1 : k = keyManifestName
    · subst hk1
      cases mn with
      | some _ => simp [fieldsToHandshake] at h
      | none =>
        cases v with
        | str s =>
          simp only [fieldsToHandshake, if_pos rfl] at h
          obtain ⟨hkeys, _, hargs⟩ := ih (some s) args m h
          refine ⟨?_, ?_, ?_⟩
          · intro k hk
            simp only [List.map_cons, List.mem_cons] at hk
            rcases hk with rfl | hk
            · exact Or.inl rfl
            · exact hkeys k hk
          · intro _; simp
          · intro ha; simp [hargs ha]
        | arr js => simp [fieldsToHandshake] at h
        | obj o => simp [fieldsToHandshake] at h
    · by_cases hk2 : k = keyArgs
      · subst hk2
        cases args with
        | some _ => simp [fieldsToHandshake, hk1] at h
        | none =>
          rcases hdec : decodeStrList v with _ | l
          · simp [fieldsToHandshake, hk1, hdec] at h
          · simp only [fieldsToHandshake, hk1, if_neg hk1, if_pos rfl, hdec] at h
            obtain ⟨hkeys, hmn, _⟩ := ih mn (some l) m h
            refine ⟨?_, ?_, ?_⟩
            · intro k hk
              simp only [List.map_cons, List.mem_cons] at hk
              rcases hk with rfl | hk
              · exact Or.inr rfl
              · exact hkeys k hk
            · intro hm; simp [hmn hm]
            · intro _; simp
      · simp [fieldsToHandshake, hk1, hk2] at h

/-- C5: `recv_nm_object` applied to a well-framed payload whose decoded
object contains any field other than `manifest_name` and `args` returns
a decoding error, and so does a payload missing `manifest_name` or
missing `args`; in neither case is a `HandshakeMessage` produced. -/
theorem strict_schema_C5 (payload : List Nat) (fs : List (List Nat × Json))
    (hlen : payload.length < 4294967296)
    (hparse : parseJson (payload.length + 1) payload = some (.obj fs, []))
    (hbad : (∃ k ∈ fs.map Prod.fst, k ≠ keyManifestName ∧ k ≠ keyArgs) ∨
        keyManifestName ∉ fs.map Prod.fst ∨ keyArgs ∉ fs.map Prod.fst) :
    ∃ e, recv_nm_object (u32Bytes payload.length ++ payload) = .error e := by
  have hslice : serdeJsonFromSlice payload = fieldsToHandshake fs none none := by
    simp [serdeJsonFromSlice, hparse, skipWs, handshakeFromJson]
  have hrecv : recv_nm_object (u32Bytes payload.length ++ payload) =
      match fieldsToHandshake fs none none with
      | .ok m => .ok (m, [])
      | .error e => .error e := by
    simp only [u32Bytes, List.cons_append, List.nil_append]
    rw [recv_nm_object.eq_def]
    norm_num [readU32_u32Bytes, Nat.mod_eq_of_lt hlen, List.take_length, hslice]
  rcases hres : fieldsToHandshake fs none none with e | m
  · exact ⟨e, by rw [hrecv, hres]⟩
  · exfalso
    obtain ⟨hkeys, hmn, hargs⟩ := fieldsToHandshake_ok_keys fs none none m hres
    rcases hbad with ⟨k, hk, hk1, hk2⟩ | hbad | hbad
    · rcases hkeys k hk with h | h
      · exact hk1 h
      · exact hk2 h
    · exact hbad (hmn rfl)
    · exact hbad (hargs rfl)

theorem strict_schema_C5_witness :
    (∃ e, recv_nm_object
        (u32Bytes (printJson (.obj [(keyManifestName, .str [97]), (keyArgs, .arr []),
            ([120], .str [])])).length ++
          printJson (.obj [(keyManifestName, .str [97]), (keyArgs, .arr []),
            ([120], .str [])])) = .error e) ∧
    (∃ e, recv_nm_object
        (u32Bytes (printJson (.obj [(keyArgs, .arr [])])).length ++
          printJson (.obj [(keyArgs, .arr [])])) = .error e) ∧
    (∃ e, recv_nm_object
        (u32Bytes (printJson (.obj [(keyManifestName, .str [97])])).length ++
          printJson (.obj [(keyManifestName, .str [97])])) = .error e) := by
  refine ⟨?_, ?_, ?_⟩
  · exact strict_schema_C5 _ [(keyManifestName, .str [97]), (keyArgs, .arr []), ([120], .str [])]
      (by decide) (by rfl) (Or.inl ⟨[120], by simp [keyManifestName, keyArgs], by simp [keyManifestName], by simp [keyArgs]⟩)
  · exact strict_schema_C5 _ [(keyArgs, .arr [])] (by decide) (by rfl)
      (Or.inr (Or.inl (by simp [keyManifestName, keyArgs])))
  · exact strict_schema_C5 _ [(keyManifestName, .str [97])] (by decide) (by rfl)
      (Or.inr (Or.inr (by simp [keyManifestName, keyArgs])))

/-! ## C2 — termination sequence, and C10 — SIGTERM guard -/

theorem bridgeLoop_aborted_trace (rs : List JoinResult) (c : ChildBehavior) :
    (bridgeLoop rs true c).1 = [] := by
  induction rs with
  | nil => rfl
  | cons r rs ih => cases r <;> simp [bridgeLoop, ih]

theorem bridgeLoop_first_trace (r : JoinResult) (rest : List JoinResult) (c : ChildBehavior)
    (hr : r = .okOk ∨ r = .cancelled) :
    (bridgeLoop (r :: rest) false c).1 = (terminationBlock c).1 := by
  have hred : bridgeLoop (r :: rest) false c =
      match terminationBlock c with
      | (evs, some out) => (evs, out)
      | (evs, none) =>
        let p := bridgeLoop rest true c
        (evs ++ p.1, p.2) := by
    rcases hr with rfl | rfl <;> rfl
  rw [hred]
  rcases hb : terminationBlock c with ⟨evs, out⟩
  cases out with
  | none => simp [bridgeLoop_aborted_trace]
  | some o => rfl

/-- C2 counterexample: a bridge whose first joined task completion is a
task error (a failed copy or stderr task) returns that error
immediately: no 200 ms sleep, no SIGTERM, no exit logging and no forced
kill ever happen, although one of the four tasks did complete first.
This falsifies the claim that SIGTERM is sent once the first task
completes, regardless of which (and, implicitly, how) it finished. -/
theorem termination_C2_counterexample :
    (launchSupervise [.okErr "connection reset"] ⟨true, true, true, true, true⟩).1 = [] ∧
    (launchSupervise [.okErr "connection reset"] ⟨true, true, true, true, true⟩).2 =
      .errored "IO task error: connection reset" ∧
    ([JoinResult.okErr "connection reset"] : List JoinResult) ≠ [] := by
  refine ⟨rfl, rfl, by simp⟩

/-- C2 (amended): for every bridge that reaches the Running state, once
the first of its four tasks completes with a non-error result (success
or cancellation), and given that the child still has a pid and the
signal/wait/kill OS calls themselves succeed, SIGTERM is sent exactly
once, preceded by the 200 ms grace sleep, regardless of which task
finished first; afterwards exactly one of two outcomes occurs, never
both: the child's exit status is logged as a non-error, or after the
10-second wait the child is forcibly killed under the
"timeout reached, killing" warning. If the first completion is a task
error or join failure, the bridge instead returns that error without
entering the termination sequence at all. -/
theorem termination_sequence_C2 (rs : List JoinResult) (c : ChildBehavior)
    (hfirst : rs.head? = some .okOk ∨ rs.head? = some .cancelled)
    (hid : c.idAvailable = true) (hsig : c.sigtermOk = true)
    (hwait : c.waitOk = true) (hkill : c.killOk = true) :
    (launchSupervise rs c).1 =
      (if c.exitsWithin10s then [.sleepMs 200, .sigterm, .logExit, .abortAll]
       else [.sleepMs 200, .sigterm, .warnTimeout, .forceKill, .abortAll]) ∧
    (launchSupervise rs c).1.count .sigterm = 1 ∧
    ((launchSupervise rs c).1.count .logExit = 1 ∧
        (launchSupervise rs c).1.count .forceKill = 0 ∨
      (launchSupervise rs c).1.count .logExit = 0 ∧
        (launchSupervise rs c).1.count .forceKill = 1) := by
  obtain ⟨r, rest, rfl⟩ : ∃ r rest, rs = r :: rest := by
    cases rs with
    | nil => simp at hfirst
    | cons r rest => exact ⟨r, rest, rfl⟩
  have hr : r = .okOk ∨ r = .cancelled := by simpa using hfirst
  have htr := bridgeLoop_first_trace r rest c hr
  have hblock : (terminationBlock c).1 =
      (if c.exitsWithin10s then [.sleepMs 200, .sigterm, .logExit, .abortAll]
       else [.sleepMs 200, .sigterm, .warnTimeout, .forceKill, .abortAll]) := by
    cases hex : c.exitsWithin10s <;>
      simp [terminationBlock, hid, hsig, hwait, hkill, hex]
  rw [launchSupervise, htr, hblock]
  cases hex : c.exitsWithin10s <;> simp

theorem termination_sequence_C2_witness :
    (launchSupervise [.okOk, .cancelled, .cancelled, .cancelled]
        ⟨true, true, true, true, true⟩).1 =
      [.sleepMs 200, .sigterm, .logExit, .abortAll] ∧
    (launchSupervise [.okOk, .cancelled, .cancelled, .cancelled]
        ⟨true, true, true, true, true⟩).1.count .sigterm = 1 := by
  have h := termination_sequence_C2 [.okOk, .cancelled, .cancelled, .cancelled]
    ⟨true, true, true, true, true⟩ (Or.inl rfl) rfl rfl rfl rfl
  exact ⟨by rw [h.1]; rfl, h.2.1⟩

/-- C10: in the termination step, the SIGTERM send is attempted only
when the child still reports a process id — when the id is unavailable
it is silently skipped (no signal event, no panic, and the rest of the
termination block proceeds, still opening with the 200 ms sleep) — and
when the signal-send operation itself fails its result is unwrapped, so
the bridge task panics instead of returning an error to the listener. -/
theorem sigterm_guard_C10 :
    (∀ c : ChildBehavior, c.idAvailable = false →
      (terminationBlock c).1.count .sigterm = 0 ∧
      (terminationBlock c).2 ≠ some .panicked ∧
      (terminationBlock c).1.head? = some (.sleepMs 200)) ∧
    (∀ (rs : List JoinResult) (c : ChildBehavior),
      rs.head? = some .okOk ∨ rs.head? = some .cancelled →
      c.idAvailable = true → c.sigtermOk = false →
      (launchSupervise rs c).2 = .panicked ∧
      (launchSupervise rs c).1.count .sigterm = 0) := by
  constructor
  · intro c hc
    refine ⟨?_, ?_, ?_⟩ <;>
      cases hex : c.exitsWithin10s <;> cases hw : c.waitOk <;> cases hk : c.killOk <;>
        simp [terminationBlock, hc, hex, hw, hk]
  · intro rs c hfirst hid hsig
    obtain ⟨r, rest, rfl⟩ : ∃ r rest, rs = r :: rest := by
      cases rs with
      | nil => simp at hfirst
      | cons r rest => exact ⟨r, rest, rfl⟩
    have hr : r = .okOk ∨ r = .cancelled := by simpa using hfirst
    have hblock : terminationBlock c = ([.sleepMs 200], some .panicked) := by
      simp [terminationBlock, hid, hsig]
    have hred : bridgeLoop (r :: rest) false c = ([.sleepMs 200], .panicked) := by
      rcases hr with rfl | rfl <;> simp [bridgeLoop, hblock]
    simp [launchSupervise, hred]

theorem sigterm_guard_C10_witness :
    (terminationBlock ⟨false, true, true, true, true⟩).1.count .sigterm = 0 ∧
    (launchSupervise [.okOk] ⟨true, false, true, true, true⟩).2 = .panicked := by
  refine ⟨(sigterm_guard_C10.1 ⟨false, true, true, true, true⟩ rfl).1, ?_⟩
  exact (sigterm_guard_C10.2 [.okOk] ⟨true, false, true, true, true⟩ (Or.inl rfl) rfl rfl).1

/-! ## C3 — cascading shutdown -/

theorem terminationBlock_head (c : ChildBehavior) :
    (terminationBlock c).1.head? = some (.sleepMs 200) := by
  unfold terminationBlock
  split
  · rfl
  · split_ifs <;> rfl

theorem listenerDrain_all_ok (results : List (Except String Unit))
    (h : ∀ r ∈ results, r = .ok ()) : listenerDrain results = .ok () := by
  induction results with
  | nil => rfl
  | cons r rest ih =>
    have hr := h r (by simp)
    subst hr
    simp only [listenerDrain]
    exact ih fun x hx => h x (by simp [hx])

theorem listenerDrain_first_error (oks : List (Except String Unit)) (e : String)
    (rest : List (Except String Unit)) (h : ∀ r ∈ oks, r = .ok ()) :
    listenerDrain (oks ++ .error e :: rest) = .error e := by
  induction oks with
  | nil => rfl
  | cons r oks ih =>
    have hr := h r (by simp)
    subst hr
    simp only [List.cons_append, listenerDrain]
    exact ih fun x hx => h x (by simp [hx])

/-- C3: after the root cancellation token is signaled, every live
Browser Listener stops accepting new connections (it emits no accept
events, only the drain) and drains by waiting for its in-flight bridges,
surfacing the first bridge error if any and success otherwise; and every
live Subprocess Bridge's cancellation-watcher task completes with a
successful result, whose arrival as the first joined completion makes
the bridge enter its termination sequence (its trace opens with the
200 ms grace sleep) — independent of how many bridges are concurrently
live. The listener loop is modelled from the specification (§4.4); the
watcher and bridge loop are translated from `src/daemon/client.rs`. -/
theorem cascading_shutdown_C3 :
    (watcherResult true = some .okOk) ∧
    (∀ (pending : List Unit) (results : List (Except String Unit)),
      (listenerOnToken true pending results).1.count .acceptedConn = 0 ∧
      (listenerOnToken true pending results).2 = some (listenerDrain results)) ∧
    (∀ (pending : List Unit) (results : List (Except String Unit)),
      (∀ r ∈ results, r = .ok ()) →
      (listenerOnToken true pending results).2 = some (.ok ())) ∧
    (∀ (pending : List Unit) (oks : List (Except String Unit)) (e : String)
       (rest : List (Except String Unit)),
      (∀ r ∈ oks, r = .ok ()) →
      (listenerOnToken true pending (oks ++ .error e :: rest)).2 = some (.error e)) ∧
    (∀ bridges : List (List JoinResult × ChildBehavior), ∀ b ∈ bridges,
      (launchSupervise (.okOk :: b.1) b.2).1.head? = some (.sleepMs 200)) := by
  refine ⟨rfl, ?_, ?_, ?_, ?_⟩
  · intro pending results
    exact ⟨by simp [listenerOnToken], by simp [listenerOnToken]⟩
  · intro pending results h
    simp [listenerOnToken, listenerDrain_all_ok results h]
  · intro pending oks e rest h
    simp [listenerOnToken, listenerDrain_first_error oks e rest h]
  · intro bridges b hb
    rw [launchSupervise, bridgeLoop_first_trace .okOk b.1 b.2 (Or.inl rfl)]
    exact terminationBlock_head b.2

theorem cascading_shutdown_C3_witness :
    ((listenerOnToken true [(), ()] [.ok (), .error "bridge io", .ok ()]).2 =
      some (.error "bridge io")) ∧
    ((launchSupervise (.okOk :: [.cancelled]) ⟨true, true, true, true, true⟩).1.head? =
      some (.sleepMs 200)) := by
  constructor
  · exact cascading_shutdown_C3.2.2.2.1 [(), ()] [.ok ()] "bridge io" [.ok ()]
      (by intro r hr; simp at hr; simp [hr])
  · exact cascading_shutdown_C3.2.2.2.2 [([.cancelled], ⟨true, true, true, true, true⟩)]
      ([.cancelled], ⟨true, true, true, true, true⟩) (by simp)

/-! ## C6 — client-side bridge exit status -/

theorem clientLoop_ok_iff (cs : List (ClientTask × TaskOutcome)) :
    ∀ g : Bool, clientLoop (cs.map fun p => joinOf p.1 p.2) g = .ok () ↔
      ((∀ p ∈ cs, isErrorOutcome p.2 = false) ∧
        (g = true ∨ (ClientTask.interruptWait, TaskOutcome.finished) ∈ cs)) := by
  induction cs with
  | nil => intro g; cases g <;> simp [clientLoop]
  | cons p cs ih =>
    intro g
    obtain ⟨t, o⟩ := p
    cases o with
    | finished =>
      have hstep : clientLoop (((t, TaskOutcome.finished) :: cs).map fun p =>
          joinOf p.1 p.2) g =
          clientLoop (cs.map fun p => joinOf p.1 p.2) (g || (t == ClientTask.interruptWait)) := by
        simp [joinOf, clientLoop]
      rw [hstep, ih]
      constructor
      · rintro ⟨h1, h2⟩
        refine ⟨fun p hp => ?_, ?_⟩
        · rcases List.mem_cons.mp hp with rfl | hp
          · rfl
          · exact h1 p hp
        · rcases h2 with h2 | h2
          · cases g with
            | true => exact Or.inl rfl
            | false =>
              have ht : t = ClientTask.interruptWait := by simpa using h2
              subst ht
              exact Or.inr (List.mem_cons_self _ _)
          · exact Or.inr (List.mem_cons_of_mem _ h2)
      · rintro ⟨h1, h2⟩
        refine ⟨fun p hp => h1 p (List.mem_cons_of_mem _ hp), ?_⟩
        rcases h2 with hg | h2
        · exact Or.inl (by simp [hg])
        · rcases List.mem_cons.mp h2 with heq | h2
          · cases heq
            exact Or.inl (by simp)
          · exact Or.inr h2
    | failed e =>
      have hstep : clientLoop (((t, TaskOutcome.failed e) :: cs).map fun p =>
          joinOf p.1 p.2) g = .error ("Task encountered error: " ++ e) := by
        simp [joinOf, clientLoop]
      rw [hstep]
      simp [isErrorOutcome]
    | wasCancelled =>
      have hstep : clientLoop (((t, TaskOutcome.wasCancelled) :: cs).map fun p =>
          joinOf p.1 p.2) g = clientLoop (cs.map fun p => joinOf p.1 p.2) g := by
        simp [joinOf, clientLoop]
      rw [hstep, ih]
      constructor
      · rintro ⟨h1, h2⟩
        refine ⟨fun p hp => ?_, ?_⟩
        · rcases List.mem_cons.mp hp with rfl | hp
          · rfl
          · exact h1 p hp
        · rcases h2 with hg | h2
          · exact Or.inl hg
          · exact Or.inr (List.mem_cons_of_mem _ h2)
      · rintro ⟨h1, h2⟩
        refine ⟨fun p hp => h1 p (List.mem_cons_of_mem _ hp), ?_⟩
        rcases h2 with hg | h2
        · exact Or.inl hg
        · rcases List.mem_cons.mp h2 with heq | h2
          · simp at heq
          · exact Or.inr h2
    | panicked e =>
      have hstep : clientLoop (((t, TaskOutcome.panicked e) :: cs).map fun p =>
          joinOf p.1 p.2) g = .error ("Unexpected error when joining task: " ++ e) := by
        simp [joinOf, clientLoop]
      rw [hstep]
      simp [isErrorOutcome]

/-- C6 counterexample: the stdin-to-channel copy task finishes first
(the channel closed), the interrupt wait then also completes before the
abort lands, and the remaining copy is cancelled — the process exits
with success even though the first task to finish was a copy task, not
the interrupt wait, falsifying the claimed equivalence. -/
theorem client_exit_C6_counterexample :
    clientRun [(.stdinCopy, .finished), (.interruptWait, .finished),
      (.stdoutCopy, .wasCancelled)] = .ok () ∧
    ([(ClientTask.stdinCopy, TaskOutcome.finished), (.interruptWait, .finished),
      (.stdoutCopy, .wasCancelled)].head? = some (.stdinCopy, .finished)) ∧
    ClientTask.stdinCopy ≠ ClientTask.interruptWait := by
  exact ⟨rfl, rfl, by simp⟩

/-- C6 (amended): after the handshake is sent, the client process exits
with success if and only if, among the joined task completions, no copy
or interrupt task surfaced an error or join failure and the interrupt
wait completed successfully. In particular the exit is successful when
the interrupt wait finishes first (the claim's forward direction), and
it is a failure whenever a copy task finishes, with or without an error,
and no interrupt completion is joined; but a successful interrupt
completion joined after an earlier copy completion also yields success,
because the loop ORs the flags of every joined result, not only the
first. -/
theorem client_exit_C6 (cs : List (ClientTask × TaskOutcome)) :
    clientRun cs = .ok () ↔
      ((∀ p ∈ cs, isErrorOutcome p.2 = false) ∧
        (ClientTask.interruptWait, TaskOutcome.finished) ∈ cs) := by
  rw [clientRun, clientLoop_ok_iff cs false]
  simp

/-! ## C7 — channel discovery -/

/-- C7 counterexample: an entry named with the socket prefix but without
the `.socket` suffix is accepted and returned by `find_socket`, although
it does not match the prefix/suffix naming convention the claim states
(the spec-worded rule `findSocketSpec` rejects the directory). -/
theorem channel_discovery_C7_counterexample :
    find_socket [("XDG_RUNTIME_DIR", "/run/user/1000")] [⟨"nm-proxy-firefox".toList, true⟩] =
      .ok "/run/user/1000/nm-proxy-firefox".toList ∧
    SOCKET_SUFFIX.isSuffixOf "nm-proxy-firefox".toList = false ∧
    findSocketSpec "/run/user/1000" [⟨"nm-proxy-firefox".toList, true⟩] =
      .error "No valid socket found in /run/user/1000" := by
  refine ⟨by decide, by decide, by decide⟩

/-- C7 (amended): the client-side bridge scans the runtime directory
(taken from the `XDG_RUNTIME_DIR` environment variable) in directory
iteration order and returns the path of the first entry that has a
regular file type and whose name starts with the fixed prefix (the
suffix is never checked); if no entry qualifies, it fails with the
"No valid socket found" error. -/
theorem channel_discovery_C7 (env : List (String × String)) (dir : String)
    (entries : List DirEntry) (henv : env.lookup "XDG_RUNTIME_DIR" = some dir) :
    find_socket env entries =
      match entries.find? socketEntryMatch with
      | some e => .ok (dir.toList ++ ('/' :: e.name))
      | none => .error ("No valid socket found in " ++ dir) := by
  have hdir : parse_env env "XDG_RUNTIME_DIR" none = .ok dir := by
    simp [parse_env, henv]
  have hmain : ∀ es : List DirEntry, findSocketScan dir es =
      match es.find? socketEntryMatch with
      | some e => .ok (dir.toList ++ ('/' :: e.name))
      | none => .error ("No valid socket found in " ++ dir) := by
    intro es
    induction es with
    | nil => rfl
    | cons e rest ih =>
      by_cases hm : socketEntryMatch e
      · rw [findSocketScan.eq_def]
        norm_num [hm, List.find?_cons_of_pos _ hm]
      · rw [findSocketScan.eq_def]
        norm_num [hm, List.find?_cons_of_neg _ hm, ih]
  rw [find_socket, hdir]
  exact hmain entries

theorem channel_discovery_C7_witness :
    find_socket [("XDG_RUNTIME_DIR", "/run/u")]
      [⟨"other".toList, true⟩, ⟨"nm-proxy-a".toList, false⟩, ⟨"nm-proxy-b".toList, true⟩] =
      .ok "/run/u/nm-proxy-b".toList := by
  rw [channel_discovery_C7 [("XDG_RUNTIME_DIR", "/run/u")] "/run/u"
    [⟨"other".toList, true⟩, ⟨"nm-proxy-a".toList, false⟩, ⟨"nm-proxy-b".toList, true⟩]
    (by rfl)]
  decide

/-! ## C8 — stderr logger -/

/-- C8 at its failing input: `read_line` followed by an unconditional
`buf.pop()` strips the last character of every line, which is the
trailing newline for newline-terminated lines (first conjunct, as the
claim states) but removes a data character from a final line that
arrives without a trailing newline: the stream `ab` (then end of
stream) is logged as `a`, not unmodified as `ab` (second and third
conjuncts, contradicting the claim and the code's own
"Remove newline" comment). -/
theorem stderr_logger_C8_bug :
    stderr_task [97, 98, 10, 99, 100, 10] = [[97, 98], [99, 100]] ∧
    stderr_task [97, 98] = [[97]] ∧
    stderr_task [97, 98] ≠ [[97, 98]] := by
  refine ⟨rfl, rfl, by decide⟩

/-! ## C9 — activation contract -/

theorem mapM_find?_mem (bs : List String) :
    ∀ (act : List PreBoundChannel) (ls : List PreBoundChannel),
      bs.mapM (fun b => act.find? (fun c => c.browser == b)) = some ls →
      ∀ ch ∈ ls, ch ∈ act := by
  induction bs with
  | nil =>
    intro act ls h ch hch
    simp only [List.mapM_nil, Option.pure_def, Option.some.injEq] at h
    subst h
    simp at hch
  | cons b bs ih =>
    intro act ls h ch hch
    simp only [List.mapM_cons, Option.pure_def, Option.bind_eq_bind,
      Option.bind_eq_some] at h
    obtain ⟨c, hc, h2⟩ := h
    obtain ⟨ls2, hls2, hcons⟩ := h2
    obtain rfl : c :: ls2 = ls := by simpa using hcons
    rcases List.mem_cons.mp hch with rfl | hch
    · exact List.mem_of_find?_eq_some hc
    · exact ih act ls2 hls2 ch hch

/-- C9: the daemon never creates or binds its listening channels itself
— every channel a started listener accepts on comes from the pre-bound
set handed over by the activation mechanism — and if zero pre-bound
channels are received at startup the daemon fails fatally before
starting any listener. Modelled from the spec (§4.5, §6): the
later-generation daemon supervisor is absent from the source tree. -/
theorem activation_contract_C9 :
    (∀ mapBrowsers : List String, daemonStartup [] mapBrowsers =
      .error "no listening sockets received, socket activation is required") ∧
    (∀ (activated : List PreBoundChannel) (mapBrowsers : List String)
       (listeners : List PreBoundChannel),
      daemonStartup activated mapBrowsers = .ok listeners →
      ∀ ch ∈ listeners, ch ∈ activated) := by
  constructor
  · intro m; rfl
  · intro act m ls h ch hch
    unfold daemonStartup at h
    split at h
    · exact absurd h (by simp)
    · rcases hmm : m.mapM (fun b => act.find? (fun c => c.browser == b)) with _ | ls2
      · rw [hmm] at h
        exact absurd h (by simp)
      · rw [hmm] at h
        simp only [Except.ok.injEq] at h
        subst h
        exact mapM_find?_mem m act ls2 hmm ch hch

theorem activation_contract_C9_witness :
    (daemonStartup [] ["firefox"] =
      .error "no listening sockets received, socket activation is required") ∧
    (⟨"firefox"⟩ : PreBoundChannel) ∈ [(⟨"firefox"⟩ : PreBoundChannel)] := by
  refine ⟨activation_contract_C9.1 ["firefox"], ?_⟩
  exact activation_contract_C9.2 [⟨"firefox"⟩] ["firefox"] [⟨"firefox"⟩] (by rfl)
    ⟨"firefox"⟩ (by simp)

end NmProxy
